import Mathlib

/-!
Verification development for the flexcalc volume-calibration module
(`flexcalc/process.py`).

The Python source is shallowly embedded in Lean:

* 64-bit floats are modelled as exact rationals (`ℚ`) where the code is pure
  arithmetic, and as reals (`ℝ`) where square roots or trigonometric
  functions occur;
* numpy arrays are modelled as nested lists (`List (List (List ℚ))` for a
  3D volume) or as index functions;
* calls into external libraries (scipy resampling, SimpleITK optimisation,
  skimage `threshold_otsu`, the FDK-based cost functional) are modelled as
  oracle parameters of the embedded functions: the repository only composes
  their results;
* Python exceptions are modelled with `Except`.
-/

namespace Flexcalc

/-! ## Scalar Parameter Calibrator
Embeds `_parabolic_min_`, `optimize_modifier` and `optimize_rotation_center`
from `flexcalc/process.py` (lines 1035-1173).  The FDK-based objective
`_modifier_l2cost_` wraps an external reconstruction operator, so the cost
functional is an oracle parameter `cost : ℚ → ℚ`. -/

/-- Minimum of a list of rationals (`numpy.min`; junk value 0 on `[]`,
which never occurs at call sites). -/
def listMin : List ℚ → ℚ
  | [] => 0
  | x :: xs => xs.foldl min x

/-- Index of the first occurrence of the minimal element
(`numpy.argmin` returns the first index attaining the minimum). -/
def argminIdx : List ℚ → ℕ
  | [] => 0
  | [_] => 0
  | x :: y :: xs => if x ≤ listMin (y :: xs) then 0 else argminIdx (y :: xs) + 1

/-- `_parabolic_min_(values, index, space)` (process.py 1035-1054).
If `index` is strictly interior, fit a parabola through the three points
`(space[index-1..index+1], values[index-1..index+1])` and return its vertex
`-B / 2 / A`; otherwise return `space[index]`.  Out-of-range reads default
to 0 (call sites always index in range). -/
def _parabolic_min_ (values : List ℚ) (index : ℕ) (space : List ℚ) : ℚ :=
  if 0 < index ∧ index < values.length - 1 then
    let x0 := space.getD (index - 1) 0
    let x1 := space.getD index 0
    let x2 := space.getD (index + 1) 0
    let y0 := values.getD (index - 1) 0
    let y1 := values.getD index 0
    let y2 := values.getD (index + 1) 0
    let denom := (x0 - x1) * (x0 - x2) * (x1 - x2)
    let A := (x2 * (y1 - y0) + x1 * (y0 - y2) + x0 * (y2 - y1)) / denom
    let B := (x2 * x2 * (y0 - y1) + x1 * x1 * (y2 - y0) + x0 * x0 * (y1 - y2)) / denom
    let vertex := -B / 2 / A
    vertex
  else
    space.getD index 0

/-- `optimize_modifier(values, ...)` (process.py 1106-1130): evaluate the
cost oracle on every trial value, take the arg-min, refine it with
`_parabolic_min_`. -/
def optimize_modifier (values : List ℚ) (cost : ℚ → ℚ) : ℚ :=
  let func_values := values.map cost
  let min_index := argminIdx func_values
  _parabolic_min_ func_values min_index values

/-- `numpy.linspace(a, b, 5)` (the search grid of
`optimize_rotation_center` always has 5 points). -/
def linspace5 (a b : ℚ) : List ℚ :=
  [a, a + (b - a) / 4, a + (b - a) / 2, a + 3 * (b - a) / 4, b]

/-- The condition tested by the subscale validation line (process.py 1157):
`(subscale != 1) & (subscale // 2 != subscale / 2)`; with integer `subscale`,
`subscale // 2 != subscale / 2` holds exactly when `subscale` is odd. -/
def subscale_check_fails (s : ℕ) : Bool :=
  (s != 1) && (s % 2 != 0)

/-- The `while subscale >= 1` loop of `optimize_rotation_center`
(process.py 1154-1171).  Note that line 1157 merely *constructs*
`ValueError('Subscale factor should be a power of 2! Aborting...')` without
raising it, so in the source the validation check has no effect and the
loop continues unconditionally; the embedding is therefore total. -/
def orc_loop (cost : ℚ → ℚ) (img_pix : ℚ) : ℕ → ℚ → ℚ
  | subscale, guess =>
    if h : subscale < 1 then guess
    else
      let trial_values :=
        linspace5 (guess - img_pix * subscale) (guess + img_pix * subscale)
      let guess' := optimize_modifier trial_values cost
      orc_loop cost img_pix (subscale / 2) guess'
  termination_by s _ => s
  decreasing_by
    simp only [not_lt] at h
    exact Nat.div_lt_self (Nat.lt_of_lt_of_le Nat.zero_lt_one h) Nat.one_lt_two

/-- `optimize_rotation_center` (process.py 1132-1173), with the initial
guess and `geometry['img_pixel']` taken as parameters (the
centre-of-mass / geometry-record initialisation reads external data). -/
def optimize_rotation_center (cost : ℚ → ℚ) (guess img_pix : ℚ)
    (subscale : ℕ) : ℚ :=
  orc_loop cost img_pix subscale guess

/-! ## Mosaic Accumulator blending weights
Embeds the weight pipeline of `append_tile` (process.py 1435-1465).  The
two distance-to-nearest-background maps come from scipy's
`distance_transform_bf` applied to the occupancy masks, so they enter the
embedding as arrays (index functions) `base_dist`/`new_dist`.  Images hold
IEEE doubles; we model finite values as `ℚ` and the one place where the
code stores `numpy.inf` (the zero entries of the normaliser) with
`Option ℚ`, `none` standing for `+∞`; division of a finite value by `+∞`
yields 0, exactly as in IEEE arithmetic. -/

/-- Division with an `Option`-encoded divisor: `none` is `+∞` (finite
value divided by `+∞` is 0 in IEEE arithmetic). -/
def qdivInf (x : ℚ) : Option ℚ → ℚ
  | none => 0
  | some d => x / d

/-- Lines 1439-1443: `dist -= 1` followed by `dist *= dist > 0`
(multiplication by the boolean mask zeroes all non-positive entries). -/
def trim_dist (d : ℚ) : ℚ :=
  (d - 1) * (if 0 < d - 1 then 1 else 0)

/-- Pointwise trimming of a whole distance map. -/
def trim_map {ι : Type} (dist : ι → ℚ) : ι → ℚ :=
  fun p => trim_dist (dist p)

/-- Lines 1444-1445: `norm = base_dist + new_dist; norm[norm == 0] = inf`
(the `none` entries are the voxels set to `numpy.inf`). -/
def norm_map {ι : Type} (base_dist new_dist : ι → ℚ) : ι → Option ℚ :=
  fun p =>
    let s := trim_map base_dist p + trim_map new_dist p
    if s = 0 then none else some s

/-- Line 1465: one row of the blend,
`tot_data[:, ii, :] = ((base_dist * base) + (new_dist * new)) / norm`. -/
def append_tile_row {ι : Type} (base_dist new_dist base new : ι → ℚ) :
    ι → ℚ :=
  fun p =>
    qdivInf (trim_map base_dist p * base p + trim_map new_dist p * new p)
      (norm_map base_dist new_dist p)

/-! ## Registration Orchestrator
Embeds `register_volumes` (process.py 569-660).  A volume is a rectangular
3D nested list of intensities.  The skimage `threshold_otsu` call, the
moments/flip search of lines 610-619 (which resamples volumes through
scipy/ITK) and the ITK conjugate-gradient refiner of line 651 are external
collaborators, passed as oracle parameters.  Python's slicing `v[::s]`
raises `ValueError` for step 0, modelled by the `stepZero` error; the
shape test of line 583 raises `IndexError`, modelled by `shapeMismatch`.
The subsampled working copies are created with `.copy()` (lines 588-589),
so the caller's buffers are never written: the embedding returns the
caller-visible buffers alongside the computed pose. -/

/-- A 3D volume as a rectangular nested list (axes Z, Y, X). -/
abbrev Vol := List (List (List ℚ))

/-- A 3×3 matrix of rationals. -/
abbrev Mat3 := Matrix (Fin 3) (Fin 3) ℚ

/-- A 3-vector of rationals. -/
abbrev Vec3 := Fin 3 → ℚ

/-- `numpy.ndarray.shape` for a rectangular nested list. -/
def shape3 (v : Vol) : ℕ × ℕ × ℕ :=
  (v.length, (v.headD []).length, ((v.headD []).headD []).length)

/-- Python slicing `l[::s]` for a positive step `s`: every `s`-th element
starting with index 0. -/
def stride {α : Type} (s : ℕ) (l : List α) : List α :=
  l.enum.filterMap (fun p => if p.1 % s = 0 then some p.2 else none)

/-- `v[::s, ::s, ::s]` on a 3D volume. -/
def stride3 (s : ℕ) (v : Vol) : Vol :=
  (stride s v).map (fun plane => (stride s plane).map (stride s))

/-- Pointwise map over a 3D volume. -/
def map3 (f : ℚ → ℚ) (v : Vol) : Vol :=
  v.map (fun plane => plane.map (fun row => row.map f))

/-- `v[v < t] = 0`: zero every intensity strictly below the threshold. -/
def zeroBelow (t : ℚ) (v : Vol) : Vol :=
  map3 (fun x => if x < t then 0 else x) v

/-- `numpy.ndarray.flatten` of a 3D volume (row-major, as used by
`numpy.append` when concatenating the two stride-2 decimations). -/
def flat3 (v : Vol) : List ℚ :=
  (v.map (fun plane => plane.flatten)).flatten

/-- Errors raised by `register_volumes`: the `IndexError` of line 583 and
the `ValueError` Python raises when a slice step is 0. -/
inductive RegErr : Type
  | shapeMismatch : RegErr
  | stepZero : RegErr
deriving DecidableEq

set_option synthInstance.maxSize 512 in
/-- Decidable equality for the result tuple of `register_volumes` (the
default instance-size limit is too small to assemble it). -/
instance : DecidableEq (Vol × Vol × Mat3 × Vec3) := inferInstance

/-- Decidable equality for `Except` values (needed to evaluate the
embedded functions on concrete inputs). -/
instance {ε α : Type} [DecidableEq ε] [DecidableEq α] :
    DecidableEq (Except ε α) := fun a b =>
  match a, b with
  | .error e, .error f =>
    match decEq e f with
    | isTrue h => isTrue (by rw [h])
    | isFalse h => isFalse (by intro c; cases c; exact h rfl)
  | .error _, .ok _ => isFalse (by intro c; cases c)
  | .ok _, .error _ => isFalse (by intro c; cases c)
  | .ok x, .ok y =>
    match decEq x y with
    | isTrue h => isTrue (by rw [h])
    | isFalse h => isFalse (by intro c; cases c; exact h rfl)

/-- Lines 583-597 of `register_volumes`: the shape precondition, the
subsampling into fresh copies, and the joint Otsu thresholding step
(threshold computed once, on the concatenation of the stride-2 decimations
of both subsampled copies, and applied to both). -/
def registerPrep (fixed moving : Vol) (subsamp : ℕ) (thr : Bool)
    (otsu : List ℚ → ℚ) : Except RegErr (Vol × Vol) :=
  if shape3 fixed ≠ shape3 moving then .error .shapeMismatch
  else if subsamp = 0 then .error .stepZero
  else
    let fixed_0 := stride3 subsamp fixed
    let moving_0 := stride3 subsamp moving
    if thr then
      let t := otsu (flat3 (stride3 2 fixed_0) ++ flat3 (stride3 2 moving_0))
      .ok (zeroBelow t fixed_0, zeroBelow t moving_0)
    else .ok (fixed_0, moving_0)

/-- The thresholding step as claim C6 words it: Otsu on the union of *all*
intensities of the two subsampled volumes (no stride-2 decimation).
Modelled from the spec for comparison with `registerPrep`. -/
def registerPrepClaim (fixed moving : Vol) (subsamp : ℕ) (thr : Bool)
    (otsu : List ℚ → ℚ) : Except RegErr (Vol × Vol) :=
  if shape3 fixed ≠ shape3 moving then .error .shapeMismatch
  else if subsamp = 0 then .error .stepZero
  else
    let fixed_0 := stride3 subsamp fixed
    let moving_0 := stride3 subsamp moving
    if thr then
      let t := otsu (flat3 fixed_0 ++ flat3 moving_0)
      .ok (zeroBelow t fixed_0, zeroBelow t moving_0)
    else .ok (fixed_0, moving_0)

/-- `register_volumes` (process.py 569-660).  Returns the caller-visible
`fixed` and `moving` buffers (unchanged, because lines 588-589 take
copies) together with the rotation matrix and the translation rescaled by
`subsamp` (line 660).  `momentsFlip` models lines 610-619
(`moments_orientation` + `_find_best_flip_`, which resample through
scipy), `cg` models the ITK refinement of line 651; both are oracles
because their values pass through external optimisers. -/
def register_volumes (fixed moving : Vol) (subsamp : ℕ)
    (use_moments use_CG : Bool) (thr : Bool) (otsu : List ℚ → ℚ)
    (momentsFlip : Vol → Vol → Mat3 × Vec3)
    (cg : Vol → Vol → Mat3 × Vec3 → Mat3 × Vec3) :
    Except RegErr (Vol × Vol × Mat3 × Vec3) :=
  match registerPrep fixed moving subsamp thr otsu with
  | .error e => .error e
  | .ok (fixed_0, moving_0) =>
    let pose0 : Mat3 × Vec3 :=
      if use_moments then momentsFlip fixed_0 moving_0
      else (!![1, 0, 0; 0, 1, 0; 0, 0, 1], fun _ => 0)
    let pose : Mat3 × Vec3 :=
      if use_CG then cg fixed_0 moving_0 pose0 else pose0
    .ok (fixed, moving, pose.1, fun i => pose.2 i * subsamp)

/-! ## Orientation Disambiguator candidate set
Embeds `_generate_flips_` (process.py 553-567) together with
transforms3d's `axangle2mat` (Rodrigues rotation about a — normalised —
axis), which the loop body calls with angles `(jj+1)*pi/2`. -/

/-- transforms3d `axangle2mat(axis, angle)`: rotation matrix about the
axis (normalised internally) by the angle, via the Rodrigues formula. -/
noncomputable def axangle2mat (axis : Fin 3 → ℝ) (angle : ℝ) :
    Matrix (Fin 3) (Fin 3) ℝ :=
  let n := Real.sqrt (axis 0 ^ 2 + axis 1 ^ 2 + axis 2 ^ 2)
  let x := axis 0 / n
  let y := axis 1 / n
  let z := axis 2 / n
  let c := Real.cos angle
  let s := Real.sin angle
  let C := 1 - c
  !![x * x * C + c, x * y * C - z * s, z * x * C + y * s;
     x * y * C + z * s, y * y * C + c, y * z * C - x * s;
     z * x * C - y * s, y * z * C + x * s, z * z * C + c]

/-- `_generate_flips_(Rfix)` (process.py 553-567): start from the
identity, then for each of the three rows of `Rfix` append the rotations
about that row by `(jj+1)*pi/2` for `jj = 0, 1, 2`. -/
noncomputable def _generate_flips_ (Rfix : Matrix (Fin 3) (Fin 3) ℝ) :
    List (Matrix (Fin 3) (Fin 3) ℝ) :=
  [1] ++ ((List.finRange 3).flatMap fun ii =>
    (List.range 3).map fun jj =>
      axangle2mat (Rfix ii) (((jj : ℝ) + 1) * (Real.pi / 2)))

/-! ## Moment Estimator
Embeds `moment3` (process.py 840-868, with the default `subsample = 1`
used by `moments_orientation`) and `moments_orientation`
(process.py 342-390).  `numpy.linalg.eig` is an external LAPACK routine:
the eigendecomposition enters the embedding as the pair
`lam` (eigenvalues) / `vec` (rows of `eig(M)[1].T`, i.e. eigenvectors),
and the correctness theorem assumes they are eigenpairs of the covariance
matrix.  `numpy.argsort` is modelled by an explicit three-element sort
(for ties any ascending order is a valid argsort result). -/

/-- `moment3(data, order, center)`: sum of
`data[i,j,k] * (i-c0)^o0 * (j-c1)^o1 * (k-c2)^o2` over the volume. -/
def moment3 (data : Vol) (order : ℕ × ℕ × ℕ) (center : ℚ × ℚ × ℚ) : ℚ :=
  (data.enum.map (fun pi =>
    ((pi.1 : ℚ) - center.1) ^ order.1 *
      (pi.2.enum.map (fun pj =>
        ((pj.1 : ℚ) - center.2.1) ^ order.2.1 *
          (pj.2.enum.map (fun pk =>
            ((pk.1 : ℚ) - center.2.2) ^ order.2.2 * pk.2)).sum)).sum)).sum

/-- Lines 355-361: the raw centroid `T = [m100/m000, m010/m000, m001/m000]`. -/
def centroid (v : Vol) : ℚ × ℚ × ℚ :=
  let m000 := moment3 v (0, 0, 0) (0, 0, 0)
  (moment3 v (1, 0, 0) (0, 0, 0) / m000,
   moment3 v (0, 1, 0) (0, 0, 0) / m000,
   moment3 v (0, 0, 1) (0, 0, 0) / m000)

/-- Lines 364-372: the central second-moment (covariance) matrix. -/
def covMatrix (v : Vol) : Mat3 :=
  let T := centroid v
  let mu200 := moment3 v (2, 0, 0) T
  let mu020 := moment3 v (0, 2, 0) T
  let mu002 := moment3 v (0, 0, 2) T
  let mu110 := moment3 v (1, 1, 0) T
  let mu101 := moment3 v (1, 0, 1) T
  let mu011 := moment3 v (0, 1, 1) T
  !![mu200, mu110, mu101; mu110, mu020, mu011; mu101, mu011, mu002]

/-- `numpy.argsort` on three values: a permutation of `(0,1,2)` putting
the values in ascending order. -/
def argsort3 (lam : Fin 3 → ℚ) : Fin 3 × Fin 3 × Fin 3 :=
  if lam 0 ≤ lam 1 then
    if lam 1 ≤ lam 2 then (0, 1, 2)
    else if lam 0 ≤ lam 2 then (0, 2, 1)
    else (2, 0, 1)
  else
    if lam 0 ≤ lam 2 then (1, 0, 2)
    else if lam 1 ≤ lam 2 then (1, 2, 0)
    else (2, 1, 0)

/-- `numpy.cross` for 3-vectors. -/
def cross3 (u w : Vec3) : Vec3 :=
  ![u 1 * w 2 - u 2 * w 1, u 2 * w 0 - u 0 * w 2, u 0 * w 1 - u 1 * w 0]

/-- `moments_orientation(data)` (process.py 342-390), with the external
eigendecomposition of the covariance matrix supplied as `lam`/`vec`:
rows of `R` are the eigenvectors sorted by descending eigenvalue
(`vec[ind[::-1]]`), the third row replaced by the cross product of the
first two; the centroid is `T - shape // 2`. -/
def moments_orientation (v : Vol) (lam : Fin 3 → ℚ) (vec : Fin 3 → Vec3) :
    Vec3 × Mat3 :=
  let T := centroid v
  let ind := argsort3 lam
  let r0 := vec ind.2.2
  let r1 := vec ind.2.1
  let r2 := cross3 r0 r1
  let Tc : Vec3 :=
    ![T.1 - ((shape3 v).1 / 2 : ℕ),
      T.2.1 - ((shape3 v).2.1 / 2 : ℕ),
      T.2.2 - ((shape3 v).2.2 / 2 : ℕ)]
  (Tc, Matrix.of ![r0, r1, r2])

/-! ## Robust Shift Estimator consensus
Embeds the aggregation part of `_find_shift_` (process.py 1323-1359): the
per-slice shift samples have already been collected (each via skimage
phase correlation, an external collaborator), and the function reduces the
list of 2D samples to a consensus shift.  Values are reals because the
source takes square roots (`numpy.sqrt`, `numpy.std`).  Comparisons of
reals are classically decidable. -/

open scoped Classical

/-- `numpy.mean(shifts, 0)`: componentwise mean of a list of 2-vectors. -/
noncomputable def meanPair (l : List (ℝ × ℝ)) : ℝ × ℝ :=
  ((l.map Prod.fst).sum / l.length, (l.map Prod.snd).sum / l.length)

/-- `numpy.sqrt(p[0]**2 + p[1]**2)`: Euclidean magnitude of a 2-vector. -/
noncomputable def norm2 (p : ℝ × ℝ) : ℝ :=
  Real.sqrt (p.1 ^ 2 + p.2 ^ 2)

/-- `numpy.std(shifts, 0)`: componentwise population standard deviation. -/
noncomputable def stdPair (l : List (ℝ × ℝ)) : ℝ × ℝ :=
  (Real.sqrt ((l.map (fun s => (s.1 - (meanPair l).1) ^ 2)).sum / l.length),
   Real.sqrt ((l.map (fun s => (s.2 - (meanPair l).2) ^ 2)).sum / l.length))

/-- Line 1337, `shifts = shifts[error < mean]`: keep exactly the samples
whose Euclidean distance from the mean is strictly below the mean's own
magnitude. -/
noncomputable def pruneFilter (mean : ℝ × ℝ) (mnorm : ℝ) :
    List (ℝ × ℝ) → List (ℝ × ℝ)
  | [] => []
  | s :: rest =>
    if Real.sqrt ((s.1 - mean.1) ^ 2 + (s.2 - mean.2) ^ 2) < mnorm then
      s :: pruneFilter mean mnorm rest
    else pruneFilter mean mnorm rest

/-- Lines 1339-1357: consensus over the pruned samples: zero shift if none
survive; otherwise their mean, unless
`(std_norm > shift_norm / 2) | (shift_norm < 1)` declares it unreliable. -/
noncomputable def consensusStep (pruned : List (ℝ × ℝ)) : ℝ × ℝ :=
  if pruned.length = 0 then (0, 0)
  else
    let shift := meanPair pruned
    let std := stdPair pruned
    if norm2 std > norm2 shift / 2 ∨ norm2 shift < 1 then (0, 0) else shift

/-- The aggregation of `_find_shift_` (process.py 1323-1359): zero shift
when no samples were collected, otherwise prune around the mean and form
the consensus. -/
noncomputable def _find_shift_agg_ (shifts : List (ℝ × ℝ)) : ℝ × ℝ :=
  if shifts.length = 0 then (0, 0)
  else consensusStep (pruneFilter (meanPair shifts) (norm2 (meanPair shifts)) shifts)

/-- The survivor filter as claim C2 words it: discard exactly the samples
whose distance from the mean strictly *exceeds* the mean's magnitude.
Modelled from the spec for comparison with `pruneFilter`. -/
noncomputable def claimDiscardFilter (m : ℝ × ℝ) :
    List (ℝ × ℝ) → List (ℝ × ℝ)
  | [] => []
  | s :: rest =>
    if Real.sqrt ((s.1 - m.1) ^ 2 + (s.2 - m.2) ^ 2) > norm2 m then
      claimDiscardFilter m rest
    else s :: claimDiscardFilter m rest

/-- The consensus step in the claim's phrasing (std-to-mean *ratio*
above 0.5); shared by the claim-side and amended-side reformulations. -/
noncomputable def claimConsensusStep (survivors : List (ℝ × ℝ)) : ℝ × ℝ :=
  if survivors.length = 0 then (0, 0)
  else
    let c := meanPair survivors
    let std := stdPair survivors
    if norm2 std / norm2 c > 1 / 2 ∨ norm2 c < 1 then (0, 0) else c

/-- Claim C2 as stated: discard only samples at distance strictly greater
than the mean magnitude.  Modelled from the spec. -/
noncomputable def claimShiftConsensus (shifts : List (ℝ × ℝ)) : ℝ × ℝ :=
  if shifts.length = 0 then (0, 0)
  else claimConsensusStep (claimDiscardFilter (meanPair shifts) shifts)

/-- The discard filter of the amended claim: discard the samples whose
distance from the mean is greater than *or equal to* the mean magnitude. -/
noncomputable def amendedDiscardFilter (m : ℝ × ℝ) :
    List (ℝ × ℝ) → List (ℝ × ℝ)
  | [] => []
  | s :: rest =>
    if Real.sqrt ((s.1 - m.1) ^ 2 + (s.2 - m.2) ^ 2) ≥ norm2 m then
      amendedDiscardFilter m rest
    else s :: amendedDiscardFilter m rest

/-- The amended claim C2: like `claimShiftConsensus` but discarding also
the samples at distance exactly the mean magnitude. -/
noncomputable def amendedShiftConsensus (shifts : List (ℝ × ℝ)) : ℝ × ℝ :=
  if shifts.length = 0 then (0, 0)
  else claimConsensusStep (amendedDiscardFilter (meanPair shifts) shifts)

/-- Concrete 1×1×2 volume used to exercise `moments_orientation`. -/
def mo_wit_V : Vol := [[[1, 3]]]

/-- Eigenvalues of `covMatrix mo_wit_V` (which is `diag (0, 0, 3/4)`). -/
def mo_wit_L : Fin 3 → ℚ := ![0, 0, 3 / 4]

/-- Eigenvectors of `covMatrix mo_wit_V` (the standard basis). -/
def mo_wit_E : Fin 3 → Vec3 := ![![1, 0, 0], ![0, 1, 0], ![0, 0, 1]]

/-- Unfolding lemma for one iteration of the subscale loop. -/
theorem orc_loop_step (cost : ℚ → ℚ) (img_pix : ℚ) (s : ℕ) (g : ℚ)
    (h : 1 ≤ s) :
    orc_loop cost img_pix s g =
      orc_loop cost img_pix (s / 2)
        (optimize_modifier
          (linspace5 (g - img_pix * s) (g + img_pix * s)) cost) := by
  rw [orc_loop]
  simp [Nat.not_lt.mpr h]

/-- The subscale loop exits once `subscale < 1`. -/
theorem orc_loop_exit (cost : ℚ → ℚ) (img_pix : ℚ) (s : ℕ) (g : ℚ)
    (h : s < 1) : orc_loop cost img_pix s g = g := by
  rw [orc_loop]
  simp [h]

end Flexcalc

namespace Flexcalc

/-! ### Theorems for claims C1 and C8 -/

set_option maxRecDepth 4000 in
/-- Claim C1: the claim states that a non-power-of-two `subscale` makes
`optimize_rotation_center` fail with a validation error.  In the source the
validation line (process.py 1157) constructs the `ValueError` but never
raises it, so the call proceeds with the hierarchical grid search and
returns a refined guess: here `subscale = 5` trips the validation
condition, yet the search runs to completion and returns the parabolic
minimum `0` of the cost `x ↦ x²`. -/
theorem optimize_rotation_center_no_abort :
    subscale_check_fails 5 = true ∧
      optimize_rotation_center (fun x => x * x) 0 1 5 = 0 := by
  constructor
  · rfl
  · rw [optimize_rotation_center,
      orc_loop_step _ _ _ _ (by norm_num),
      show (5 : ℕ) / 2 = 2 from rfl,
      orc_loop_step _ _ _ _ (by norm_num),
      show (2 : ℕ) / 2 = 1 from rfl,
      orc_loop_step _ _ _ _ (by norm_num),
      show (1 : ℕ) / 2 = 0 from rfl,
      orc_loop_exit _ _ _ _ (by norm_num)]
    with_unfolding_all decide

/-- Claim C8: with `index` the arg-min of the cost grid, `_parabolic_min_`
returns the vertex `-B / (2A)` of the parabola fitted through the arg-min
point and its two immediate neighbours whenever the arg-min is strictly
interior (the fitted parabola being made explicit by the interpolation
equations), and returns the raw grid point `space[index]` unchanged when
the arg-min lies at either boundary of the grid. -/
theorem parabolic_min_vertex (values space : List ℚ) (index : ℕ)
    (_hidx : index = argminIdx values) :
    (0 < index → index < values.length - 1 →
      space.getD (index - 1) 0 ≠ space.getD index 0 →
      space.getD (index - 1) 0 ≠ space.getD (index + 1) 0 →
      space.getD index 0 ≠ space.getD (index + 1) 0 →
      ∃ A B C : ℚ,
        A * (space.getD (index - 1) 0) ^ 2 + B * space.getD (index - 1) 0 + C
            = values.getD (index - 1) 0 ∧
        A * (space.getD index 0) ^ 2 + B * space.getD index 0 + C
            = values.getD index 0 ∧
        A * (space.getD (index + 1) 0) ^ 2 + B * space.getD (index + 1) 0 + C
            = values.getD (index + 1) 0 ∧
        _parabolic_min_ values index space = -B / (2 * A)) ∧
    (¬(0 < index ∧ index < values.length - 1) →
      _parabolic_min_ values index space = space.getD index 0) := by
  constructor
  · intro h1 h2 hd01 hd02 hd12
    set x0 := space.getD (index - 1) 0 with hx0
    set x1 := space.getD index 0 with hx1
    set x2 := space.getD (index + 1) 0 with hx2
    set y0 := values.getD (index - 1) 0 with hy0
    set y1 := values.getD index 0 with hy1
    set y2 := values.getD (index + 1) 0 with hy2
    have hden : (x0 - x1) * (x0 - x2) * (x1 - x2) ≠ 0 := by
      refine mul_ne_zero (mul_ne_zero ?_ ?_) ?_ <;> exact sub_ne_zero.mpr (by assumption)
    set denom := (x0 - x1) * (x0 - x2) * (x1 - x2) with hdenom
    set A := (x2 * (y1 - y0) + x1 * (y0 - y2) + x0 * (y2 - y1)) / denom with hA
    set B := (x2 * x2 * (y0 - y1) + x1 * x1 * (y2 - y0) + x0 * x0 * (y1 - y2)) / denom with hB
    refine ⟨A, B, y0 - A * x0 ^ 2 - B * x0, by ring, ?_, ?_, ?_⟩
    · rw [hA, hB]
      field_simp
      ring
    · rw [hA, hB]
      field_simp
      ring
    · rw [_parabolic_min_, if_pos ⟨h1, h2⟩]
      show -B / 2 / A = -B / (2 * A)
      rw [div_div]
  · intro h
    rw [_parabolic_min_, if_neg h]

/-- Witness for C8 at `values = [3, 1, 2]`, `space = [0, 1, 2]`: the
arg-min index 1 is interior and the fitted parabola's vertex is produced. -/
theorem parabolic_min_vertex_witness :
    (1 : ℕ) = argminIdx [3, 1, 2] ∧
      (∃ A B C : ℚ,
        A * (0 : ℚ) ^ 2 + B * 0 + C = 3 ∧
        A * (1 : ℚ) ^ 2 + B * 1 + C = 1 ∧
        A * (2 : ℚ) ^ 2 + B * 2 + C = 2 ∧
        _parabolic_min_ [3, 1, 2] 1 [0, 1, 2] = -B / (2 * A)) := by
  constructor
  · norm_num [argminIdx, listMin]
  · simpa using
      (parabolic_min_vertex [3, 1, 2] [0, 1, 2] 1
            (by norm_num [argminIdx, listMin])).1
        (by norm_num) (by norm_num) (by norm_num) (by norm_num) (by norm_num)

/-- Claim C7: in the `append_tile` weight pipeline, both
distance-to-nearest-background maps have 1 subtracted and are floored at 0
(`trim_map` computes `max (d - 1) 0`), their sum is the blending
normaliser, every voxel where that sum is 0 is set to infinity (`none`)
before the per-row division — so such voxels produce a zero contribution —
and the divisor is never the finite value 0, so no division-by-zero
occurs. -/
theorem append_tile_weights {ι : Type} (base_dist new_dist base new : ι → ℚ)
    (p : ι) :
    trim_map base_dist p = max (base_dist p - 1) 0 ∧
    norm_map base_dist new_dist p ≠ some 0 ∧
    (trim_map base_dist p + trim_map new_dist p = 0 →
      norm_map base_dist new_dist p = none ∧
      append_tile_row base_dist new_dist base new p = 0) := by
  refine ⟨?_, ?_, ?_⟩
  · rw [trim_map, trim_dist]
    rcases lt_or_le 0 (base_dist p - 1) with h | h
    · rw [if_pos h, mul_one]
      exact (max_eq_left (le_of_lt h)).symm
    · rw [if_neg (not_lt.mpr h), mul_zero]
      exact (max_eq_right h).symm
  · rw [norm_map]
    by_cases h : trim_map base_dist p + trim_map new_dist p = 0
    · simp [h]
    · simp [h]
  · intro h
    have hn : norm_map base_dist new_dist p = none := by
      rw [norm_map]
      simp [h]
    exact ⟨hn, by rw [append_tile_row, hn, qdivInf]⟩

/-- Witness for C7 at distance maps that are 1 everywhere (trimmed to 0,
the zero-normaliser case): the divisor is `none` (infinity) and the
blended row value is 0. -/
theorem append_tile_weights_witness :
    trim_map (fun _ : Fin 1 => (1 : ℚ)) 0 + trim_map (fun _ : Fin 1 => (1 : ℚ)) 0 = 0 ∧
    norm_map (fun _ : Fin 1 => (1 : ℚ)) (fun _ : Fin 1 => (1 : ℚ)) 0 = none ∧
    append_tile_row (fun _ : Fin 1 => (1 : ℚ)) (fun _ : Fin 1 => (1 : ℚ))
        (fun _ : Fin 1 => (5 : ℚ)) (fun _ : Fin 1 => (7 : ℚ)) 0 = 0 := by
  have h0 : trim_map (fun _ : Fin 1 => (1 : ℚ)) 0 + trim_map (fun _ : Fin 1 => (1 : ℚ)) 0 = 0 := by
    norm_num [trim_map, trim_dist]
  have h := (append_tile_weights (fun _ : Fin 1 => (1 : ℚ)) (fun _ : Fin 1 => (1 : ℚ))
      (fun _ : Fin 1 => (5 : ℚ)) (fun _ : Fin 1 => (7 : ℚ)) 0).2.2 h0
  exact ⟨h0, h.1, h.2⟩

/-- Claim C9: `register_volumes` fails with the shape-mismatch error
exactly when the two volumes have different shapes.  The equivalence holds
for every value of every other argument and every oracle, because the
check (line 583) is the first statement of the function: on mismatch the
bare error is returned before any subsampling, thresholding or
registration work, and no data is touched. -/
theorem register_volumes_shape_check (fixed moving : Vol) (subsamp : ℕ)
    (use_moments use_CG thr : Bool) (otsu : List ℚ → ℚ)
    (momentsFlip : Vol → Vol → Mat3 × Vec3)
    (cg : Vol → Vol → Mat3 × Vec3 → Mat3 × Vec3) :
    register_volumes fixed moving subsamp use_moments use_CG thr otsu
        momentsFlip cg = .error .shapeMismatch ↔
      shape3 fixed ≠ shape3 moving := by
  unfold register_volumes registerPrep
  by_cases hs : shape3 fixed ≠ shape3 moving
  · simp [hs]
  · by_cases h0 : subsamp = 0
    · cases thr <;> simp [hs, h0]
    · cases thr <;> simp [hs, h0]

/-- Claim C10 (counterexample): with `subsamp = 0` the subsampling slice
`fixed[::0]` raises (`ValueError`: slice step cannot be zero), so
`register_volumes` with `use_moments = False`, `use_CG = False` does *not*
return the identity pose for every `subsamp`, contradicting the claim's
"regardless of ... the subsamp ... arguments". -/
theorem register_volumes_subsamp_zero :
    register_volumes [[[1]]] [[[1]]] 0 false false false (fun _ => 0)
        (fun _ _ => (1, fun _ => 0)) (fun _ _ p => p) = .error .stepZero ∧
      register_volumes [[[1]]] [[[1]]] 0 false false false (fun _ => 0)
          (fun _ _ => (1, fun _ => 0)) (fun _ _ p => p) ≠
        .ok ([[[1]]], [[[1]]], (1 : Mat3), (0 : Vec3)) := by
  constructor
  · with_unfolding_all decide
  · with_unfolding_all decide

/-- Claim C10 (amended: nonzero `subsamp`): for every pair of equal-shaped
volumes and every nonzero `subsamp`, `register_volumes` with
`use_moments = False` and `use_CG = False` returns exactly the identity
rotation and the zero translation, regardless of the volumes' contents,
of the threshold mode and of the oracles. -/
theorem register_volumes_no_moments_identity (fixed moving : Vol)
    (subsamp : ℕ) (thr : Bool) (otsu : List ℚ → ℚ)
    (momentsFlip : Vol → Vol → Mat3 × Vec3)
    (cg : Vol → Vol → Mat3 × Vec3 → Mat3 × Vec3)
    (hsh : shape3 fixed = shape3 moving) (hs : subsamp ≠ 0) :
    register_volumes fixed moving subsamp false false thr otsu momentsFlip
        cg = .ok (fixed, moving, (1 : Mat3), (0 : Vec3)) := by
  unfold register_volumes registerPrep
  rw [if_neg (by simp [hsh]), if_neg hs]
  cases thr <;>
    · simp only [if_true, if_false, Bool.false_eq_true]
      refine congrArg Except.ok ?_
      refine Prod.ext rfl (Prod.ext rfl (Prod.ext ?_ ?_))
      · simp [Matrix.one_fin_three]
      · funext i
        simp

/-- Witness for the amended C10 at two concrete 1×1×1 volumes with
different contents, `subsamp = 1`, thresholding off. -/
theorem register_volumes_no_moments_identity_witness :
    shape3 [[[3]]] = shape3 [[[4]]] ∧ (1 : ℕ) ≠ 0 ∧
      register_volumes [[[3]]] [[[4]]] 1 false false false (fun _ => 0)
          (fun _ _ => (1, fun _ => 0)) (fun _ _ p => p) =
        .ok ([[[3]]], [[[4]]], (1 : Mat3), (0 : Vec3)) :=
  ⟨rfl, by decide,
    register_volumes_no_moments_identity [[[3]]] [[[4]]] 1 false (fun _ => 0)
      (fun _ _ => (1, fun _ => 0)) (fun _ _ p => p) rfl (by decide)⟩

/-- Claim C3 (counterexample): the claim says the subsampling and
thresholding steps are applied to the caller's buffers.  At a concrete
call the returned caller-visible buffers equal the original volumes
(lines 588-589 operate on `.copy()`s), while the thresholding of the
subsampled data would have changed them. -/
theorem register_volumes_mutation_counterexample :
    register_volumes [[[1, 5]]] [[[1, 5]]] 1 false false true (fun _ => 2)
        (fun _ _ => (1, fun _ => 0)) (fun _ _ p => p) =
      .ok ([[[1, 5]]], [[[1, 5]]], (1 : Mat3), (0 : Vec3)) ∧
    zeroBelow 2 (stride3 1 [[[1, 5]]]) ≠ [[[1, 5]]] := by
  constructor
  · with_unfolding_all decide
  · with_unfolding_all decide

/-- Claim C3 (amended): `register_volumes` does **not** mutate its input
volumes: whenever it returns, the caller-visible `fixed` and `moving`
buffers are unchanged, because the subsampling and thresholding steps
operate on internal copies. -/
theorem register_volumes_preserves_inputs (fixed moving : Vol)
    (subsamp : ℕ) (use_moments use_CG thr : Bool) (otsu : List ℚ → ℚ)
    (momentsFlip : Vol → Vol → Mat3 × Vec3)
    (cg : Vol → Vol → Mat3 × Vec3 → Mat3 × Vec3)
    (out : Vol × Vol × Mat3 × Vec3)
    (h : register_volumes fixed moving subsamp use_moments use_CG thr otsu
        momentsFlip cg = .ok out) :
    out.1 = fixed ∧ out.2.1 = moving := by
  unfold register_volumes at h
  cases hp : registerPrep fixed moving subsamp thr otsu with
  | error e =>
    rw [hp] at h
    simp at h
  | ok p =>
    obtain ⟨f0, m0⟩ := p
    rw [hp] at h
    simp only [Except.ok.injEq] at h
    subst h
    exact ⟨rfl, rfl⟩

/-- Witness for the amended C3: a successful concrete call whose returned
buffers are the original volumes. -/
theorem register_volumes_preserves_inputs_witness :
    register_volumes [[[2, 6]]] [[[2, 7]]] 1 false false true (fun _ => 3)
        (fun _ _ => (1, fun _ => 0)) (fun _ _ p => p) =
      .ok ([[[2, 6]]], [[[2, 7]]], (1 : Mat3), (0 : Vec3)) ∧
    (([[[2, 6]]], [[[2, 7]]], (1 : Mat3), (0 : Vec3)) :
        Vol × Vol × Mat3 × Vec3).1 = [[[2, 6]]] ∧
    (([[[2, 6]]], [[[2, 7]]], (1 : Mat3), (0 : Vec3)) :
        Vol × Vol × Mat3 × Vec3).2.1 = [[[2, 7]]] := by
  have h : register_volumes [[[2, 6]]] [[[2, 7]]] 1 false false true
      (fun _ => 3) (fun _ _ => (1, fun _ => 0)) (fun _ _ p => p) =
      .ok ([[[2, 6]]], [[[2, 7]]], (1 : Mat3), (0 : Vec3)) := by
    with_unfolding_all decide
  exact ⟨h,
    register_volumes_preserves_inputs [[[2, 6]]] [[[2, 7]]] 1 false false
      true (fun _ => 3) (fun _ _ => (1, fun _ => 0)) (fun _ _ p => p) _ h⟩

/-- Claim C6 (counterexample): the claim says the single threshold is
Otsu applied to the union of the *subsampled volumes'* intensities; the
code applies it to the union of their stride-2 decimations
(line 595: `fixed_0[::2, ::2, ::2]`).  With the mean as a stand-in for
the external threshold functional, the two differ on a concrete input
and produce different thresholded volumes. -/
theorem register_threshold_decimation_counterexample :
    registerPrep [[[1, 5]]] [[[1, 5]]] 1 true
        (fun l => l.sum / (l.length : ℚ)) = .ok ([[[1, 5]]], [[[1, 5]]]) ∧
    registerPrepClaim [[[1, 5]]] [[[1, 5]]] 1 true
        (fun l => l.sum / (l.length : ℚ)) = .ok ([[[0, 5]]], [[[0, 5]]]) ∧
    ([[[(1 : ℚ), 5]]] : Vol) ≠ [[[0, 5]]] := by
  refine ⟨?_, ?_, ?_⟩ <;> with_unfolding_all decide

/-- Claim C6 (amended): when the threshold mode is set, `register_volumes`
computes exactly one threshold — by the external threshold functional
(Otsu) applied to the concatenation of the stride-2 decimations of the two
subsampled volumes — and zeroes every value strictly below that single
shared threshold in both subsampled volumes; it never computes two
independent per-volume thresholds. -/
theorem register_threshold_shared (fixed moving : Vol) (subsamp : ℕ)
    (otsu : List ℚ → ℚ) (hsh : shape3 fixed = shape3 moving)
    (hs : subsamp ≠ 0) :
    ∃ t, t = otsu (flat3 (stride3 2 (stride3 subsamp fixed)) ++
        flat3 (stride3 2 (stride3 subsamp moving))) ∧
      registerPrep fixed moving subsamp true otsu =
        .ok (zeroBelow t (stride3 subsamp fixed),
             zeroBelow t (stride3 subsamp moving)) := by
  refine ⟨_, rfl, ?_⟩
  unfold registerPrep
  rw [if_neg (by simp [hsh]), if_neg hs]
  simp

/-- Witness for the amended C6 at a concrete call. -/
theorem register_threshold_shared_witness :
    shape3 [[[4, 8]]] = shape3 [[[4, 9]]] ∧ (1 : ℕ) ≠ 0 ∧
      (∃ t, t = (fun l => l.sum / (l.length : ℚ))
          (flat3 (stride3 2 (stride3 1 [[[4, 8]]])) ++
            flat3 (stride3 2 (stride3 1 [[[4, 9]]]))) ∧
        registerPrep [[[4, 8]]] [[[4, 9]]] 1 true
            (fun l => l.sum / (l.length : ℚ)) =
          .ok (zeroBelow t (stride3 1 [[[4, 8]]]),
               zeroBelow t (stride3 1 [[[4, 9]]]))) :=
  ⟨rfl, by decide,
    register_threshold_shared [[[4, 8]]] [[[4, 9]]] 1
      (fun l => l.sum / (l.length : ℚ)) rfl (by decide)⟩

/-- Claim C5: for every rotation matrix `Rfix`, `_generate_flips_` builds
an ordered list of exactly 10 candidate rotations: the identity first,
then, for each of the three principal-axis rows of `Rfix` in order, the
rotations about that row by 90 degrees (`pi/2`), 180 degrees (`pi`) and
270 degrees (`3*pi/2`). -/
theorem generate_flips_candidates (Rfix : Matrix (Fin 3) (Fin 3) ℝ) :
    (_generate_flips_ Rfix).length = 10 ∧
    _generate_flips_ Rfix =
      [1,
       axangle2mat (Rfix 0) (Real.pi / 2),
       axangle2mat (Rfix 0) Real.pi,
       axangle2mat (Rfix 0) (3 * (Real.pi / 2)),
       axangle2mat (Rfix 1) (Real.pi / 2),
       axangle2mat (Rfix 1) Real.pi,
       axangle2mat (Rfix 1) (3 * (Real.pi / 2)),
       axangle2mat (Rfix 2) (Real.pi / 2),
       axangle2mat (Rfix 2) Real.pi,
       axangle2mat (Rfix 2) (3 * (Real.pi / 2))] := by
  have e0 : (((0 : ℕ) : ℝ) + 1) * (Real.pi / 2) = Real.pi / 2 := by norm_num
  have e1 : (((1 : ℕ) : ℝ) + 1) * (Real.pi / 2) = Real.pi := by
    push_cast
    ring
  have e2 : (((2 : ℕ) : ℝ) + 1) * (Real.pi / 2) = 3 * (Real.pi / 2) := by
    push_cast
    ring
  have hl : _generate_flips_ Rfix =
      [1,
       axangle2mat (Rfix 0) ((((0 : ℕ) : ℝ) + 1) * (Real.pi / 2)),
       axangle2mat (Rfix 0) ((((1 : ℕ) : ℝ) + 1) * (Real.pi / 2)),
       axangle2mat (Rfix 0) ((((2 : ℕ) : ℝ) + 1) * (Real.pi / 2)),
       axangle2mat (Rfix 1) ((((0 : ℕ) : ℝ) + 1) * (Real.pi / 2)),
       axangle2mat (Rfix 1) ((((1 : ℕ) : ℝ) + 1) * (Real.pi / 2)),
       axangle2mat (Rfix 1) ((((2 : ℕ) : ℝ) + 1) * (Real.pi / 2)),
       axangle2mat (Rfix 2) ((((0 : ℕ) : ℝ) + 1) * (Real.pi / 2)),
       axangle2mat (Rfix 2) ((((1 : ℕ) : ℝ) + 1) * (Real.pi / 2)),
       axangle2mat (Rfix 2) ((((2 : ℕ) : ℝ) + 1) * (Real.pi / 2))] := by
    rw [_generate_flips_,
      show List.finRange 3 = [0, 1, 2] from rfl,
      show List.range 3 = [0, 1, 2] from rfl]
    rfl
  refine ⟨by rw [hl]; rfl, ?_⟩
  rw [hl, e0, e1, e2]

/-- Claim C4: for every volume with nonzero zeroth moment (and eigenpairs
`lam`/`vec` of the covariance matrix as returned by the external
eigendecomposition), the rotation matrix returned by
`moments_orientation` has its first two rows equal to eigenvectors of the
covariance matrix ordered by descending eigenvalue (the third sorted
position belonging to the smallest eigenvalue), the third row replaced by
the cross product of the first two rows, and the returned centroid equal
to the intensity-weighted first moments divided by the zeroth moment
minus `shape // 2` per axis. -/
theorem moments_orientation_spec (v : Vol) (lam : Fin 3 → ℚ)
    (vec : Fin 3 → Vec3)
    (_hm : moment3 v (0, 0, 0) (0, 0, 0) ≠ 0)
    (heig : ∀ i : Fin 3, (covMatrix v).mulVec (vec i) = lam i • vec i) :
    ∃ i j k : Fin 3, i ≠ j ∧ i ≠ k ∧ j ≠ k ∧
      lam j ≤ lam i ∧ lam k ≤ lam j ∧
      (moments_orientation v lam vec).2 0 = vec i ∧
      (moments_orientation v lam vec).2 1 = vec j ∧
      (covMatrix v).mulVec ((moments_orientation v lam vec).2 0) =
        lam i • (moments_orientation v lam vec).2 0 ∧
      (covMatrix v).mulVec ((moments_orientation v lam vec).2 1) =
        lam j • (moments_orientation v lam vec).2 1 ∧
      (moments_orientation v lam vec).2 2 =
        cross3 ((moments_orientation v lam vec).2 0)
          ((moments_orientation v lam vec).2 1) ∧
      (moments_orientation v lam vec).1 =
        ![moment3 v (1, 0, 0) (0, 0, 0) / moment3 v (0, 0, 0) (0, 0, 0) -
            ((shape3 v).1 / 2 : ℕ),
          moment3 v (0, 1, 0) (0, 0, 0) / moment3 v (0, 0, 0) (0, 0, 0) -
            ((shape3 v).2.1 / 2 : ℕ),
          moment3 v (0, 0, 1) (0, 0, 0) / moment3 v (0, 0, 0) (0, 0, 0) -
            ((shape3 v).2.2 / 2 : ℕ)] := by
  have hrow : ∀ ind : Fin 3 × Fin 3 × Fin 3,
      argsort3 lam = ind →
      (moments_orientation v lam vec).2 0 = vec ind.2.2 ∧
      (moments_orientation v lam vec).2 1 = vec ind.2.1 ∧
      (moments_orientation v lam vec).2 2 =
        cross3 (vec ind.2.2) (vec ind.2.1) ∧
      (moments_orientation v lam vec).1 =
        ![(centroid v).1 - ((shape3 v).1 / 2 : ℕ),
          (centroid v).2.1 - ((shape3 v).2.1 / 2 : ℕ),
          (centroid v).2.2 - ((shape3 v).2.2 / 2 : ℕ)] := by
    intro ind hind
    rw [moments_orientation, hind]
    refine ⟨rfl, rfl, rfl, rfl⟩
  have hcent :
      ![(centroid v).1 - ((shape3 v).1 / 2 : ℕ),
        (centroid v).2.1 - ((shape3 v).2.1 / 2 : ℕ),
        (centroid v).2.2 - ((shape3 v).2.2 / 2 : ℕ)] =
      ![moment3 v (1, 0, 0) (0, 0, 0) / moment3 v (0, 0, 0) (0, 0, 0) -
          ((shape3 v).1 / 2 : ℕ),
        moment3 v (0, 1, 0) (0, 0, 0) / moment3 v (0, 0, 0) (0, 0, 0) -
          ((shape3 v).2.1 / 2 : ℕ),
        moment3 v (0, 0, 1) (0, 0, 0) / moment3 v (0, 0, 0) (0, 0, 0) -
          ((shape3 v).2.2 / 2 : ℕ)] := rfl
  by_cases h1 : lam 0 ≤ lam 1
  · by_cases h2 : lam 1 ≤ lam 2
    · obtain ⟨hr0, hr1, hr2, hc⟩ :=
        hrow (0, 1, 2) (by rw [argsort3, if_pos h1, if_pos h2])
      exact ⟨2, 1, 0, by decide, by decide, by decide, h2, h1, hr0, hr1,
        by rw [hr0]; exact heig 2, by rw [hr1]; exact heig 1,
        by rw [hr0, hr1]; exact hr2, hc.trans hcent⟩
    · by_cases h3 : lam 0 ≤ lam 2
      · obtain ⟨hr0, hr1, hr2, hc⟩ :=
          hrow (0, 2, 1) (by rw [argsort3, if_pos h1, if_neg h2, if_pos h3])
        exact ⟨1, 2, 0, by decide, by decide, by decide,
          le_of_lt (not_le.mp h2), h3, hr0, hr1,
          by rw [hr0]; exact heig 1, by rw [hr1]; exact heig 2,
          by rw [hr0, hr1]; exact hr2, hc.trans hcent⟩
      · obtain ⟨hr0, hr1, hr2, hc⟩ :=
          hrow (2, 0, 1) (by rw [argsort3, if_pos h1, if_neg h2, if_neg h3])
        exact ⟨1, 0, 2, by decide, by decide, by decide, h1,
          le_of_lt (not_le.mp h3), hr0, hr1,
          by rw [hr0]; exact heig 1, by rw [hr1]; exact heig 0,
          by rw [hr0, hr1]; exact hr2, hc.trans hcent⟩
  · by_cases h4 : lam 0 ≤ lam 2
    · obtain ⟨hr0, hr1, hr2, hc⟩ :=
        hrow (1, 0, 2) (by rw [argsort3, if_neg h1, if_pos h4])
      exact ⟨2, 0, 1, by decide, by decide, by decide, h4,
        le_of_lt (not_le.mp h1), hr0, hr1,
        by rw [hr0]; exact heig 2, by rw [hr1]; exact heig 0,
        by rw [hr0, hr1]; exact hr2, hc.trans hcent⟩
    · by_cases h5 : lam 1 ≤ lam 2
      · obtain ⟨hr0, hr1, hr2, hc⟩ :=
          hrow (1, 2, 0) (by rw [argsort3, if_neg h1, if_neg h4, if_pos h5])
        exact ⟨0, 2, 1, by decide, by decide, by decide,
          le_of_lt (not_le.mp h4), h5, hr0, hr1,
          by rw [hr0]; exact heig 0, by rw [hr1]; exact heig 2,
          by rw [hr0, hr1]; exact hr2, hc.trans hcent⟩
      · obtain ⟨hr0, hr1, hr2, hc⟩ :=
          hrow (2, 1, 0) (by rw [argsort3, if_neg h1, if_neg h4, if_neg h5])
        exact ⟨0, 1, 2, by decide, by decide, by decide,
          le_of_lt (not_le.mp h1), le_of_lt (not_le.mp h5), hr0, hr1,
          by rw [hr0]; exact heig 0, by rw [hr1]; exact heig 1,
          by rw [hr0, hr1]; exact hr2, hc.trans hcent⟩

/-- Witness for C4 at the 1×1×2 volume `[[[1, 3]]]`, whose covariance
matrix is `diag (0, 0, 3/4)` with the standard basis as eigenvectors. -/
theorem moments_orientation_spec_witness :
    moment3 mo_wit_V (0, 0, 0) (0, 0, 0) ≠ 0 ∧
    (∀ i : Fin 3, (covMatrix mo_wit_V).mulVec (mo_wit_E i) =
      mo_wit_L i • mo_wit_E i) ∧
    (∃ i j k : Fin 3, i ≠ j ∧ i ≠ k ∧ j ≠ k ∧
      mo_wit_L j ≤ mo_wit_L i ∧ mo_wit_L k ≤ mo_wit_L j ∧
      (moments_orientation mo_wit_V mo_wit_L mo_wit_E).2 0 = mo_wit_E i ∧
      (moments_orientation mo_wit_V mo_wit_L mo_wit_E).2 1 = mo_wit_E j ∧
      (covMatrix mo_wit_V).mulVec
          ((moments_orientation mo_wit_V mo_wit_L mo_wit_E).2 0) =
        mo_wit_L i • (moments_orientation mo_wit_V mo_wit_L mo_wit_E).2 0 ∧
      (covMatrix mo_wit_V).mulVec
          ((moments_orientation mo_wit_V mo_wit_L mo_wit_E).2 1) =
        mo_wit_L j • (moments_orientation mo_wit_V mo_wit_L mo_wit_E).2 1 ∧
      (moments_orientation mo_wit_V mo_wit_L mo_wit_E).2 2 =
        cross3 ((moments_orientation mo_wit_V mo_wit_L mo_wit_E).2 0)
          ((moments_orientation mo_wit_V mo_wit_L mo_wit_E).2 1) ∧
      (moments_orientation mo_wit_V mo_wit_L mo_wit_E).1 =
        ![moment3 mo_wit_V (1, 0, 0) (0, 0, 0) /
            moment3 mo_wit_V (0, 0, 0) (0, 0, 0) -
            ((shape3 mo_wit_V).1 / 2 : ℕ),
          moment3 mo_wit_V (0, 1, 0) (0, 0, 0) /
            moment3 mo_wit_V (0, 0, 0) (0, 0, 0) -
            ((shape3 mo_wit_V).2.1 / 2 : ℕ),
          moment3 mo_wit_V (0, 0, 1) (0, 0, 0) /
            moment3 mo_wit_V (0, 0, 0) (0, 0, 0) -
            ((shape3 mo_wit_V).2.2 / 2 : ℕ)]) :=
  ⟨by with_unfolding_all decide, by with_unfolding_all decide,
    moments_orientation_spec mo_wit_V mo_wit_L mo_wit_E
      (by with_unfolding_all decide) (by with_unfolding_all decide)⟩


/-- Claim C2 (amended): `_find_shift_agg_` behaves as the claim describes
except at the boundary of the outlier filter: a sample whose distance from
the mean *equals* the mean's magnitude is also discarded (the source keeps
only `error < mean`).  Formally, the aggregation coincides with the
claim-style consensus built on the discard-at-or-above filter. -/
theorem find_shift_agg_amended (shifts : List (ℝ × ℝ)) :
    _find_shift_agg_ shifts = amendedShiftConsensus shifts := by
  have hfilter : ∀ (m : ℝ × ℝ) (l : List (ℝ × ℝ)),
      pruneFilter m (norm2 m) l = amendedDiscardFilter m l := by
    intro m l
    induction l with
    | nil => rfl
    | cons s rest ih =>
      rw [pruneFilter, amendedDiscardFilter]
      by_cases h : Real.sqrt ((s.1 - m.1) ^ 2 + (s.2 - m.2) ^ 2) < norm2 m
      · rw [if_pos h, if_neg (not_le.mpr h), ih]
      · rw [if_neg h, if_pos (not_lt.mp h), ih]
  have hstep : ∀ l : List (ℝ × ℝ), consensusStep l = claimConsensusStep l := by
    intro l
    by_cases h1 : l.length = 0
    · rw [consensusStep, claimConsensusStep, if_pos h1, if_pos h1]
    · rw [consensusStep, claimConsensusStep, if_neg h1, if_neg h1]
      show (if norm2 (stdPair l) > norm2 (meanPair l) / 2 ∨ norm2 (meanPair l) < 1
            then ((0 : ℝ), (0 : ℝ)) else meanPair l) =
          (if norm2 (stdPair l) / norm2 (meanPair l) > 1 / 2 ∨ norm2 (meanPair l) < 1
            then ((0 : ℝ), (0 : ℝ)) else meanPair l)
      refine if_congr ?_ rfl rfl
      by_cases h2 : norm2 (meanPair l) < 1
      · simp [h2]
      · have hpos : 0 < norm2 (meanPair l) :=
          lt_of_lt_of_le one_pos (not_lt.mp h2)
        constructor
        · rintro (h | h)
          · left
            rw [gt_iff_lt, lt_div_iff₀ hpos]
            rw [gt_iff_lt] at h
            linarith
          · exact Or.inr h
        · rintro (h | h)
          · left
            rw [gt_iff_lt, lt_div_iff₀ hpos] at h
            rw [gt_iff_lt]
            linarith
          · exact Or.inr h
  rw [_find_shift_agg_, amendedShiftConsensus]
  by_cases h0 : shifts.length = 0
  · rw [if_pos h0, if_pos h0]
  · rw [if_neg h0, if_neg h0, hfilter, hstep]

/-- Claim C2 (counterexample): on the samples
`[(0,0), (4,0), (4,0), (4,0)]` the mean is `(3,0)` and the sample `(0,0)`
sits at distance exactly `|mean| = 3`: the code discards it (strict
`error < mean` filter) and returns the survivors' mean `(4,0)`, while the
claim's procedure (discard only when the distance *exceeds* `|m|`) keeps
it, gets std-to-mean ratio `sqrt 3 / 3 > 1/2`, and returns the zero
shift. -/
theorem find_shift_agg_counterexample :
    _find_shift_agg_ [((0 : ℝ), (0 : ℝ)), (4, 0), (4, 0), (4, 0)] = (4, 0) ∧
    claimShiftConsensus [((0 : ℝ), (0 : ℝ)), (4, 0), (4, 0), (4, 0)] = (0, 0) ∧
    ((4 : ℝ), (0 : ℝ)) ≠ ((0 : ℝ), (0 : ℝ)) := by
  have h9 : Real.sqrt 9 = 3 := by
    rw [show (9 : ℝ) = 3 ^ 2 by norm_num, Real.sqrt_sq (by norm_num : (0 : ℝ) ≤ 3)]
  have h16 : Real.sqrt 16 = 4 := by
    rw [show (16 : ℝ) = 4 ^ 2 by norm_num, Real.sqrt_sq (by norm_num : (0 : ℝ) ≤ 4)]
  have hm : meanPair [((0 : ℝ), (0 : ℝ)), (4, 0), (4, 0), (4, 0)] = (3, 0) := by
    rw [meanPair]
    norm_num
  have hT : meanPair [((4 : ℝ), (0 : ℝ)), (4, 0), (4, 0)] = (4, 0) := by
    rw [meanPair]
    norm_num
  have hnm : norm2 (3, 0) = 3 := by
    rw [norm2]
    norm_num [h9]
  have hn4 : norm2 (4, 0) = 4 := by
    rw [norm2]
    norm_num [h16]
  have hn0 : norm2 (0, 0) = 0 := by
    rw [norm2]
    norm_num [Real.sqrt_zero]
  have hprune : pruneFilter (3, 0) 3 [((0 : ℝ), (0 : ℝ)), (4, 0), (4, 0), (4, 0)] =
      [((4 : ℝ), (0 : ℝ)), (4, 0), (4, 0)] := by
    norm_num [pruneFilter, h9, Real.sqrt_one]
  have hstdT : stdPair [((4 : ℝ), (0 : ℝ)), (4, 0), (4, 0)] = (0, 0) := by
    rw [stdPair, hT]
    norm_num [Real.sqrt_zero]
  have hcode : _find_shift_agg_ [((0 : ℝ), (0 : ℝ)), (4, 0), (4, 0), (4, 0)] = (4, 0) := by
    rw [_find_shift_agg_, if_neg (by norm_num), hm, hnm, hprune, consensusStep,
      if_neg (by norm_num)]
    show (if norm2 (stdPair [((4 : ℝ), (0 : ℝ)), (4, 0), (4, 0)]) >
          norm2 (meanPair [((4 : ℝ), (0 : ℝ)), (4, 0), (4, 0)]) / 2 ∨
          norm2 (meanPair [((4 : ℝ), (0 : ℝ)), (4, 0), (4, 0)]) < 1
        then ((0 : ℝ), (0 : ℝ))
        else meanPair [((4 : ℝ), (0 : ℝ)), (4, 0), (4, 0)]) = (4, 0)
    rw [hstdT, hT, hn0, hn4, if_neg (by norm_num)]
  have hdisc : claimDiscardFilter (3, 0) [((0 : ℝ), (0 : ℝ)), (4, 0), (4, 0), (4, 0)] =
      [((0 : ℝ), (0 : ℝ)), (4, 0), (4, 0), (4, 0)] := by
    norm_num [claimDiscardFilter, h9, Real.sqrt_one, hnm]
  have hstdS : stdPair [((0 : ℝ), (0 : ℝ)), (4, 0), (4, 0), (4, 0)] = (Real.sqrt 3, 0) := by
    rw [stdPair, hm]
    norm_num [Real.sqrt_zero]
  have hsq3 : (Real.sqrt 3) ^ 2 = 3 := Real.sq_sqrt (by norm_num)
  have hnstd : norm2 (Real.sqrt 3, 0) = Real.sqrt 3 := by
    rw [norm2]
    norm_num [hsq3]
  have hratio : Real.sqrt 3 / 3 > 1 / 2 := by
    rw [gt_iff_lt, lt_div_iff₀ (by norm_num : (0 : ℝ) < 3)]
    have h32 : (3 : ℝ) / 2 < Real.sqrt 3 :=
      (Real.lt_sqrt (by norm_num : (0 : ℝ) ≤ 3 / 2)).mpr (by norm_num)
    linarith
  have hclaim : claimShiftConsensus [((0 : ℝ), (0 : ℝ)), (4, 0), (4, 0), (4, 0)] = (0, 0) := by
    rw [claimShiftConsensus, if_neg (by norm_num), hm, hdisc, claimConsensusStep,
      if_neg (by norm_num)]
    show (if norm2 (stdPair [((0 : ℝ), (0 : ℝ)), (4, 0), (4, 0), (4, 0)]) /
          norm2 (meanPair [((0 : ℝ), (0 : ℝ)), (4, 0), (4, 0), (4, 0)]) > 1 / 2 ∨
          norm2 (meanPair [((0 : ℝ), (0 : ℝ)), (4, 0), (4, 0), (4, 0)]) < 1
        then ((0 : ℝ), (0 : ℝ))
        else meanPair [((0 : ℝ), (0 : ℝ)), (4, 0), (4, 0), (4, 0)]) = (0, 0)
    rw [hstdS, hm, hnstd, hnm, if_pos (Or.inl hratio)]
  exact ⟨hcode, hclaim, by norm_num [Prod.ext_iff]⟩

end Flexcalc
